import Mathlib

/-
Verification of srunner/scenariomanager/carla_data_provider.py, a state
cache and actor pool for a CARLA driving-simulation test harness.

Shallow embedding conventions:
  - Python floats are modelled as rationals (Coord) except for the one
    genuinely irrational quantity, the velocity magnitude computed by
    math.sqrt, which is a real number.
  - Python dicts keyed by actor objects are modelled as association lists
    in insertion order (dict assignment updates in place or appends).
  - Exceptions are modelled with Except; a raised exception leaves the
    module-level maps exactly as the statements executed so far left them.
  - The CARLA simulator is an external collaborator; its per-call answers
    (actor observations, spawn outcomes, map topology, random choices)
    are passed in as explicit oracle functions.
-/

namespace CarlaSpec

/-- Scalar coordinate values; rationals stand in for the floats of the source. -/
abbrev Coord := ℚ

/-- A carla.Location value: three coordinates. -/
structure Location where
  x : Coord
  y : Coord
  z : Coord
deriving DecidableEq

/-- A carla.Rotation value. -/
structure Rotation where
  pitch : Coord
  yaw : Coord
  roll : Coord
deriving DecidableEq

/-- A carla.Transform value: a pose (location plus rotation). -/
structure Transform where
  location : Location
  rotation : Rotation
deriving DecidableEq

/-- An actor handle; the stable integer identity is its one distinguishing
datum (the glossary: every simulated entity has a unique identity). -/
structure Actor where
  id : ℤ
deriving DecidableEq

/-- What the simulator reports for one actor at one tick: aliveness,
planar velocity components, location and transform (the results of
is_alive, get_velocity, get_location and get_transform). -/
structure ActorObs where
  isAlive : Bool
  velX : Coord
  velY : Coord
  location : Location
  transform : Transform

/-- calculate_velocity (lines 24 to 30): velocity_squared is the sum of the
squared planar components of actor.get_velocity, and the result is its
square root. -/
noncomputable def calculate_velocity (obs : Actor → ActorObs) (a : Actor) : ℝ :=
  Real.sqrt ((((obs a).velX : ℝ)) ^ 2 + (((obs a).velY : ℝ)) ^ 2)

/-! Association-list helpers standing in for Python dict operations. -/

/-- The keys of a dict, in insertion order. -/
def keysOf {κ α : Type} (m : List (κ × α)) : List κ :=
  m.map Prod.fst

/-- Membership test of the Python form: key in dict. -/
def containsKey {κ α : Type} [DecidableEq κ] (m : List (κ × α)) (k : κ) : Bool :=
  decide (k ∈ keysOf m)

/-- Dict read: the value stored under a key, if any. -/
def lookupKey {κ α : Type} [DecidableEq κ] (m : List (κ × α)) (k : κ) : Option α :=
  match m with
  | [] => none
  | p :: rest => if p.1 = k then some p.2 else lookupKey rest k

/-- Dict assignment: update the entry in place when the key is present,
append a fresh entry otherwise. -/
def setKey {κ α : Type} [DecidableEq κ] (m : List (κ × α)) (k : κ) (v : α) :
    List (κ × α) :=
  match m with
  | [] => [(k, v)]
  | p :: rest => if p.1 = k then (k, v) :: rest else p :: setKey rest k v

/-- The three telemetry buffers of CarlaDataProvider: _actor_velocity_map,
_actor_location_map and _actor_transform_map (lines 51 to 53). Location and
transform entries are None until the first tick after registration. -/
structure ProviderState where
  velocityMap : List (Actor × ℝ)
  locationMap : List (Actor × Option Location)
  transformMap : List (Actor × Option Transform)

/-- The error kinds the provider raises; the KeyError of a second
registration is the DuplicateRegistration of the specification. -/
inductive ProviderError
  | duplicateRegistration
deriving DecidableEq

/-- CarlaDataProvider.register_actor (lines 60 to 82): three blocks, one per
buffer, each checking membership and either raising KeyError or inserting
the initial value (0.0 velocity, None location, None transform). A raise
aborts the remaining blocks but keeps the insertions already made. -/
noncomputable def register_actor (s : ProviderState) (a : Actor) :
    Except ProviderError Unit × ProviderState :=
  if containsKey s.velocityMap a then
    (Except.error ProviderError.duplicateRegistration, s)
  else
    let s1 := { s with velocityMap := setKey s.velocityMap a 0 }
    if containsKey s1.locationMap a then
      (Except.error ProviderError.duplicateRegistration, s1)
    else
      let s2 := { s1 with locationMap := setKey s1.locationMap a none }
      if containsKey s2.transformMap a then
        (Except.error ProviderError.duplicateRegistration, s2)
      else
        (Except.ok (), { s2 with transformMap := setKey s2.transformMap a none })

/-- CarlaDataProvider.register_actors (lines 84 to 90): registers each actor
in order; the first raise propagates and stops the loop, keeping every
insertion made so far. -/
noncomputable def register_actors (s : ProviderState) :
    List Actor → Except ProviderError Unit × ProviderState
  | [] => (Except.ok (), s)
  | a :: rest =>
    match register_actor s a with
    | (Except.ok _, s1) => register_actors s1 rest
    | (Except.error e, s1) => (Except.error e, s1)

/-- One buffer refresh loop of on_carla_tick: every key that is alive gets a
freshly computed value, every other key keeps its stored value. Keys of a
dict are never None, so the `actor is not None` guard of the source is
always true here. -/
def refreshMap {α : Type} (obs : Actor → ActorObs) (f : Actor → α)
    (m : List (Actor × α)) : List (Actor × α) :=
  m.map (fun p => if (obs p.1).isAlive then (p.1, f p.1) else p)

/-- CarlaDataProvider.on_carla_tick (lines 92 to 107): three loops, one per
buffer, refreshing the value of every alive registered actor from the
simulator report and leaving dead actors with their stale values. -/
noncomputable def on_carla_tick (obs : Actor → ActorObs) (s : ProviderState) :
    ProviderState :=
  { velocityMap := refreshMap obs (calculate_velocity obs) s.velocityMap,
    locationMap := refreshMap obs (fun a => some (obs a).location) s.locationMap,
    transformMap := refreshMap obs (fun a => some (obs a).transform) s.transformMap }

/-- CarlaDataProvider.get_velocity (lines 109 to 121): scan the velocity map
keys for one with the same id; on a miss print a diagnostic (the Bool) and
return 0.0 instead of raising. -/
def get_velocity (s : ProviderState) (a : Actor) : ℝ × Bool :=
  match s.velocityMap.find? (fun p => p.1.id == a.id) with
  | some p => (p.2, false)
  | none => (0, true)

/-- CarlaDataProvider.get_location (lines 123 to 135): scan by id; on a miss
print a diagnostic and return None. -/
def get_location (s : ProviderState) (a : Actor) : Option Location × Bool :=
  match s.locationMap.find? (fun p => p.1.id == a.id) with
  | some p => (p.2, false)
  | none => (none, true)

/-- CarlaDataProvider.get_transform (lines 137 to 149): scan by id; on a miss
print a diagnostic and return None. -/
def get_transform (s : ProviderState) (a : Actor) : Option Transform × Bool :=
  match s.transformMap.find? (fun p => p.1.id == a.id) with
  | some p => (p.2, false)
  | none => (none, true)

/-- CarlaDataProvider.cleanup (lines 405 to 417), restricted to the three
telemetry buffers: all are cleared. (The source also clears the traffic
light map and unsets world, map, sync flag and route; those fields are not
part of this record.) -/
def cleanupProvider : ProviderState :=
  ⟨[], [], []⟩

/-- The empty starting state of the module-level buffers. -/
def initProvider : ProviderState :=
  ⟨[], [], []⟩

/-- One public cache operation, for stating the key-set invariant over
every call sequence. A tick step carries the simulator report it saw. -/
inductive CacheStep
  | reg (a : Actor)
  | regMany (actors : List Actor)
  | tick (obs : Actor → ActorObs)
  | cleanup

/-- Execute one cache operation; a raised DuplicateRegistration leaves the
module-level maps as the statements executed before the raise left them. -/
noncomputable def execStep : CacheStep → ProviderState → ProviderState
  | CacheStep.reg a, s => (register_actor s a).2
  | CacheStep.regMany actors, s => (register_actors s actors).2
  | CacheStep.tick obs, s => on_carla_tick obs s
  | CacheStep.cleanup, _ => cleanupProvider

/-- Run a sequence of cache operations from the empty initial state. -/
noncomputable def runSteps (l : List CacheStep) : ProviderState :=
  l.foldl (fun s st => execStep st s) initProvider

/-- The three buffers hold exactly the same keys in the same order. -/
def sameKeys (s : ProviderState) : Prop :=
  keysOf s.locationMap = keysOf s.velocityMap ∧
    keysOf s.transformMap = keysOf s.velocityMap

/-! Basic facts about the dict model. -/

theorem keysOf_append {κ α : Type} (m l : List (κ × α)) :
    keysOf (m ++ l) = keysOf m ++ keysOf l := by
  simp [keysOf]

theorem containsKey_congr {κ α β : Type} [DecidableEq κ]
    {m : List (κ × α)} {l : List (κ × β)} (h : keysOf m = keysOf l) (k : κ) :
    containsKey m k = containsKey l k := by
  simp [containsKey, h]

theorem setKey_of_not_mem {κ α : Type} [DecidableEq κ]
    {m : List (κ × α)} {k : κ} (h : containsKey m k = false) (v : α) :
    setKey m k v = m ++ [(k, v)] := by
  induction m with
  | nil => rfl
  | cons p rest ih =>
    simp only [containsKey, keysOf, List.map_cons, List.mem_cons,
      decide_eq_false_iff_not, not_or] at h
    have hne : ¬p.1 = k := fun hp => h.1 hp.symm
    have hrest : setKey rest k v = rest ++ [(k, v)] :=
      ih (by simp [containsKey, keysOf, h.2])
    simp only [setKey, if_neg hne, hrest, List.cons_append]

theorem lookupKey_isSome {κ α : Type} [DecidableEq κ]
    (m : List (κ × α)) (k : κ) :
    (lookupKey m k).isSome = containsKey m k := by
  induction m with
  | nil => rfl
  | cons p rest ih =>
    by_cases hpk : p.1 = k
    · simp [lookupKey, hpk, containsKey, keysOf]
    · simp only [lookupKey, if_neg hpk, ih, containsKey, keysOf,
        List.map_cons, List.mem_cons]
      have : ¬k = p.1 := fun hk => hpk hk.symm
      simp [this]

theorem lookupKey_refreshMap {α : Type} (obs : Actor → ActorObs)
    (f : Actor → α) (m : List (Actor × α)) (k : Actor) :
    lookupKey (refreshMap obs f m) k =
      (lookupKey m k).map (fun v => if (obs k).isAlive then f k else v) := by
  induction m with
  | nil => rfl
  | cons p rest ih =>
    by_cases hpk : p.1 = k
    · subst hpk
      by_cases ha : (obs p.1).isAlive
      · simp [refreshMap, lookupKey, ha]
      · simp [refreshMap, lookupKey, ha]
    · by_cases ha : (obs p.1).isAlive
      · simpa [refreshMap, lookupKey, ha, hpk] using ih
      · simpa [refreshMap, lookupKey, ha, hpk] using ih

theorem keysOf_refreshMap {α : Type} (obs : Actor → ActorObs)
    (f : Actor → α) (m : List (Actor × α)) :
    keysOf (refreshMap obs f m) = keysOf m := by
  induction m with
  | nil => rfl
  | cons p rest ih =>
    by_cases ha : (obs p.1).isAlive
    · simpa [refreshMap, keysOf, ha] using ih
    · simpa [refreshMap, keysOf, ha] using ih

theorem containsKey_of_mem_any {κ α : Type} [DecidableEq κ]
    {m : List (κ × α)} {k : κ} (h : containsKey m k = true) :
    k ∈ keysOf m := of_decide_eq_true h

/-! Preservation of the shared key set (the C9 invariant). -/

theorem register_actor_of_dup {s : ProviderState} {a : Actor}
    (h : containsKey s.velocityMap a = true) :
    register_actor s a = (Except.error ProviderError.duplicateRegistration, s) := by
  simp [register_actor, h]

theorem register_actor_of_fresh {s : ProviderState} {a : Actor}
    (hs : sameKeys s) (h : containsKey s.velocityMap a = false) :
    register_actor s a =
      (Except.ok (),
        { velocityMap := s.velocityMap ++ [(a, 0)],
          locationMap := s.locationMap ++ [(a, none)],
          transformMap := s.transformMap ++ [(a, none)] }) := by
  have hloc : containsKey s.locationMap a = false :=
    (containsKey_congr hs.1 a).trans h
  have htr : containsKey s.transformMap a = false :=
    (containsKey_congr hs.2 a).trans h
  simp only [register_actor, h, Bool.false_eq_true, if_false,
    hloc, htr, setKey_of_not_mem h, setKey_of_not_mem hloc,
    setKey_of_not_mem htr]

theorem sameKeys_register_actor {s : ProviderState} (a : Actor)
    (hs : sameKeys s) : sameKeys (register_actor s a).2 := by
  by_cases h : containsKey s.velocityMap a = true
  · rw [register_actor_of_dup h]; exact hs
  · rw [register_actor_of_fresh hs (by simpa using h)]
    have h1 := hs.1
    have h2 := hs.2
    simp only [keysOf] at h1 h2
    refine ⟨?_, ?_⟩
    · simp [keysOf_append, keysOf, h1]
    · simp [keysOf_append, keysOf, h2]

theorem sameKeys_register_actors {s : ProviderState} (actors : List Actor)
    (hs : sameKeys s) : sameKeys (register_actors s actors).2 := by
  induction actors generalizing s with
  | nil => exact hs
  | cons a rest ih =>
    have hpres : sameKeys (register_actor s a).2 := sameKeys_register_actor a hs
    cases hreg : register_actor s a with
    | mk r s1 =>
      cases r with
      | ok u =>
        have : sameKeys s1 := by rw [hreg] at hpres; exact hpres
        simpa [register_actors, hreg] using ih this
      | error e =>
        have : sameKeys s1 := by rw [hreg] at hpres; exact hpres
        simpa [register_actors, hreg] using this

theorem sameKeys_execStep (st : CacheStep) {s : ProviderState}
    (hs : sameKeys s) : sameKeys (execStep st s) := by
  cases st with
  | reg a => exact sameKeys_register_actor a hs
  | regMany actors => exact sameKeys_register_actors actors hs
  | tick obs =>
    exact ⟨by simp [execStep, on_carla_tick, keysOf_refreshMap, hs.1],
      by simp [execStep, on_carla_tick, keysOf_refreshMap, hs.2]⟩
  | cleanup => exact ⟨rfl, rfl⟩

theorem sameKeys_runSteps (l : List CacheStep) : sameKeys (runSteps l) := by
  suffices h : ∀ s : ProviderState, sameKeys s →
      sameKeys (l.foldl (fun s st => execStep st s) s) by
    exact h initProvider ⟨rfl, rfl⟩
  induction l with
  | nil => exact fun s hs => hs
  | cons st rest ih =>
    exact fun s hs => ih (execStep st s) (sameKeys_execStep st hs)

/-- C9: after every sequence of register_actor, register_actors,
on_carla_tick and cleanup calls from the empty initial state, including
calls that raise, an actor is a key of the location or transform buffer
exactly when it is a key of the velocity buffer: the three telemetry
buffers always share one key set. -/
theorem c9_shared_keyset (l : List CacheStep) (a : Actor) :
    containsKey (runSteps l).locationMap a
        = containsKey (runSteps l).velocityMap a ∧
      containsKey (runSteps l).transformMap a
        = containsKey (runSteps l).velocityMap a :=
  ⟨containsKey_congr (sameKeys_runSteps l).1 a,
    containsKey_congr (sameKeys_runSteps l).2 a⟩

/-- C1: against a cache whose three buffers share one key set (the C9
invariant, which holds of every reachable state), register_actor on an
actor already present in any buffer raises DuplicateRegistration and
leaves all three buffers exactly as they were, and register_actor on an
absent actor succeeds and appends an initial record (0.0 velocity, empty
location, empty transform) to all three buffers. -/
theorem c1_register_actor (s : ProviderState) (a : Actor) (hs : sameKeys s) :
    ((containsKey s.velocityMap a = true ∨ containsKey s.locationMap a = true ∨
        containsKey s.transformMap a = true) →
      register_actor s a = (Except.error ProviderError.duplicateRegistration, s)) ∧
    ((containsKey s.velocityMap a = false ∧ containsKey s.locationMap a = false ∧
        containsKey s.transformMap a = false) →
      register_actor s a =
        (Except.ok (),
          { velocityMap := s.velocityMap ++ [(a, 0)],
            locationMap := s.locationMap ++ [(a, none)],
            transformMap := s.transformMap ++ [(a, none)] })) := by
  constructor
  · intro h
    have hv : containsKey s.velocityMap a = true := by
      rcases h with h | h | h
      · exact h
      · exact (containsKey_congr hs.1 a).symm.trans h
      · exact (containsKey_congr hs.2 a).symm.trans h
    exact register_actor_of_dup hv
  · intro h
    exact register_actor_of_fresh hs h.1

/-- A one-actor cache state used to instantiate the cache theorems. -/
noncomputable def demoProvider : ProviderState :=
  ⟨[(⟨7⟩, 0)], [(⟨7⟩, none)], [(⟨7⟩, none)]⟩

theorem c1_register_actor_witness :
    register_actor demoProvider ⟨7⟩
      = (Except.error ProviderError.duplicateRegistration, demoProvider) :=
  (c1_register_actor demoProvider ⟨7⟩ ⟨rfl, rfl⟩).1 (Or.inl (by decide))

/-- C6: after on_carla_tick, a registered alive actor's cached velocity is
the planar magnitude of the reported velocity and its cached location and
transform are exactly the reported ones; a dead registered actor and an
unregistered actor keep exactly the values cached before the call. -/
theorem c6_tick_refresh (s : ProviderState) (obs : Actor → ActorObs) (a : Actor) :
    (containsKey s.velocityMap a = true → (obs a).isAlive = true →
        lookupKey (on_carla_tick obs s).velocityMap a
          = some (calculate_velocity obs a)) ∧
    (containsKey s.locationMap a = true → (obs a).isAlive = true →
        lookupKey (on_carla_tick obs s).locationMap a
          = some (some (obs a).location)) ∧
    (containsKey s.transformMap a = true → (obs a).isAlive = true →
        lookupKey (on_carla_tick obs s).transformMap a
          = some (some (obs a).transform)) ∧
    ((obs a).isAlive = false →
        lookupKey (on_carla_tick obs s).velocityMap a = lookupKey s.velocityMap a ∧
        lookupKey (on_carla_tick obs s).locationMap a = lookupKey s.locationMap a ∧
        lookupKey (on_carla_tick obs s).transformMap a
          = lookupKey s.transformMap a) ∧
    (containsKey s.velocityMap a = false →
        lookupKey (on_carla_tick obs s).velocityMap a = lookupKey s.velocityMap a) ∧
    (containsKey s.locationMap a = false →
        lookupKey (on_carla_tick obs s).locationMap a = lookupKey s.locationMap a) ∧
    (containsKey s.transformMap a = false →
        lookupKey (on_carla_tick obs s).transformMap a
          = lookupKey s.transformMap a) := by
  have hvm := lookupKey_refreshMap obs (calculate_velocity obs) s.velocityMap a
  have hlm := lookupKey_refreshMap obs (fun x => some (obs x).location) s.locationMap a
  have htm := lookupKey_refreshMap obs (fun x => some (obs x).transform) s.transformMap a
  refine ⟨?_, ?_, ?_, ?_, ?_, ?_, ?_⟩
  · intro hc ha
    obtain ⟨v, hv⟩ := Option.isSome_iff_exists.mp
      (show (lookupKey s.velocityMap a).isSome = true by rw [lookupKey_isSome]; exact hc)
    show lookupKey (refreshMap obs (calculate_velocity obs) s.velocityMap) a = _
    rw [hvm, hv]; simp [ha]
  · intro hc ha
    obtain ⟨v, hv⟩ := Option.isSome_iff_exists.mp
      (show (lookupKey s.locationMap a).isSome = true by rw [lookupKey_isSome]; exact hc)
    show lookupKey (refreshMap obs (fun x => some (obs x).location) s.locationMap) a = _
    rw [hlm, hv]; simp [ha]
  · intro hc ha
    obtain ⟨v, hv⟩ := Option.isSome_iff_exists.mp
      (show (lookupKey s.transformMap a).isSome = true by rw [lookupKey_isSome]; exact hc)
    show lookupKey (refreshMap obs (fun x => some (obs x).transform) s.transformMap) a = _
    rw [htm, hv]; simp [ha]
  · intro ha
    refine ⟨?_, ?_, ?_⟩
    · show lookupKey (refreshMap obs (calculate_velocity obs) s.velocityMap) a = _
      rw [hvm]; cases lookupKey s.velocityMap a <;> simp [ha]
    · show lookupKey (refreshMap obs (fun x => some (obs x).location) s.locationMap) a = _
      rw [hlm]; cases lookupKey s.locationMap a <;> simp [ha]
    · show lookupKey (refreshMap obs (fun x => some (obs x).transform) s.transformMap) a = _
      rw [htm]; cases lookupKey s.transformMap a <;> simp [ha]
  · intro hc
    have hnone : lookupKey s.velocityMap a = none := by
      have := lookupKey_isSome s.velocityMap a
      rw [hc] at this
      exact Option.not_isSome_iff_eq_none.mp (by simp [this])
    show lookupKey (refreshMap obs (calculate_velocity obs) s.velocityMap) a = _
    rw [hvm, hnone]; rfl
  · intro hc
    have hnone : lookupKey s.locationMap a = none := by
      have := lookupKey_isSome s.locationMap a
      rw [hc] at this
      exact Option.not_isSome_iff_eq_none.mp (by simp [this])
    show lookupKey (refreshMap obs (fun x => some (obs x).location) s.locationMap) a = _
    rw [hlm, hnone]; rfl
  · intro hc
    have hnone : lookupKey s.transformMap a = none := by
      have := lookupKey_isSome s.transformMap a
      rw [hc] at this
      exact Option.not_isSome_iff_eq_none.mp (by simp [this])
    show lookupKey (refreshMap obs (fun x => some (obs x).transform) s.transformMap) a = _
    rw [htm, hnone]; rfl

/-- A simulator report used to instantiate the tick theorem. -/
def demoObs : Actor → ActorObs :=
  fun _ => ⟨true, 3, 4, ⟨1, 2, 3⟩, ⟨⟨1, 2, 3⟩, ⟨0, 90, 0⟩⟩⟩

theorem c6_tick_refresh_witness :
    lookupKey (on_carla_tick demoObs demoProvider).locationMap ⟨7⟩
      = some (some ⟨1, 2, 3⟩) :=
  (c6_tick_refresh demoProvider demoObs ⟨7⟩).2.1 (by decide) (by decide)

/-- C7: when no key of the corresponding buffer carries the queried
identity, get_velocity returns 0.0, get_location and get_transform return
the null default, and each emits a diagnostic (the Bool component); all
three are total functions of the state and the actor, so none ever
raises. -/
theorem c7_query_defaults (s : ProviderState) (a : Actor)
    (hv : ∀ p ∈ s.velocityMap, p.1.id ≠ a.id)
    (hl : ∀ p ∈ s.locationMap, p.1.id ≠ a.id)
    (ht : ∀ p ∈ s.transformMap, p.1.id ≠ a.id) :
    get_velocity s a = (0, true) ∧ get_location s a = (none, true) ∧
      get_transform s a = (none, true) := by
  refine ⟨?_, ?_, ?_⟩
  · rw [get_velocity, List.find?_eq_none.mpr (fun p hp => by simp [hv p hp])]
  · rw [get_location, List.find?_eq_none.mpr (fun p hp => by simp [hl p hp])]
  · rw [get_transform, List.find?_eq_none.mpr (fun p hp => by simp [ht p hp])]

theorem c7_query_defaults_witness :
    get_velocity demoProvider ⟨9⟩ = (0, true) ∧
      get_location demoProvider ⟨9⟩ = (none, true) ∧
      get_transform demoProvider ⟨9⟩ = (none, true) :=
  c7_query_defaults demoProvider ⟨9⟩ (by decide) (by decide) (by decide)

/-! Traffic-light group classification (annotate_trafficlight_in_group). -/

/-- A traffic light as the classifier sees it: its identity and the yaw of
its static transform (get_transform().rotation.yaw). -/
structure GroupLight where
  lid : ℤ
  yaw : Coord
deriving DecidableEq

/-- The four relative-heading buckets of the annotation dictionary. -/
inductive Bucket
  | ref
  | left
  | opposite
  | right
deriving DecidableEq

/-- The threshold chain of lines 224 to 231, applied to the already
adjusted difference. -/
def bucketOfDiff (diff : Coord) : Bucket :=
  if diff ≤ 45 ∨ diff > 340 then Bucket.ref
  else if 240 < diff ∧ diff < 300 then Bucket.left
  else if 160 < diff ∧ diff ≤ 240 then Bucket.opposite
  else Bucket.right

/-- Lines 220 to 231: diff is target yaw minus reference yaw, moved up by
360 only when negative, then bucketed. -/
def classifyLight (refYaw targetYaw : Coord) : Bucket :=
  let diff := targetYaw - refYaw
  bucketOfDiff (if diff < 0 then 360 + diff else diff)

/-- The annotation dictionary: one list per bucket, in group order. -/
structure GroupBuckets where
  ref : List GroupLight
  opposite : List GroupLight
  left : List GroupLight
  right : List GroupLight
deriving DecidableEq

/-- Append a light to the list of one bucket. -/
def addToBucket (d : GroupBuckets) (b : Bucket) (t : GroupLight) : GroupBuckets :=
  match b with
  | Bucket.ref => { d with ref := d.ref ++ [t] }
  | Bucket.left => { d with left := d.left ++ [t] }
  | Bucket.opposite => { d with opposite := d.opposite ++ [t] }
  | Bucket.right => { d with right := d.right ++ [t] }

/-- The bucket lists of an annotation dictionary, indexed by bucket. -/
def bucketList (d : GroupBuckets) : Bucket → List GroupLight
  | Bucket.ref => d.ref
  | Bucket.left => d.left
  | Bucket.opposite => d.opposite
  | Bucket.right => d.right

/-- CarlaDataProvider.annotate_trafficlight_in_group (lines 209 to 233):
every light of the group (get_group_traffic_lights, an external
collaborator answer passed as the list) is appended to the bucket its
heading difference selects. -/
def annotate_trafficlight_in_group (light : GroupLight)
    (group : List GroupLight) : GroupBuckets :=
  group.foldl (fun d t => addToBucket d (classifyLight light.yaw t.yaw) t)
    ⟨[], [], [], []⟩

/-- True modular wrap of a heading difference into the interval from 0
inclusive to 360 exclusive. -/
def wrap360 (q : Coord) : Coord :=
  q - 360 * (⌊q / 360⌋ : ℚ)

/-- Modelled from the specification sentence of the claim: the bucket of
the heading difference wrapped into the interval from 0 to 360. -/
def specBucket (refYaw targetYaw : Coord) : Bucket :=
  bucketOfDiff (wrap360 (targetYaw - refYaw))

theorem classify_eq_spec {r t : Coord} (hr1 : -180 ≤ r) (hr2 : r ≤ 180)
    (ht1 : -180 ≤ t) (ht2 : t ≤ 180) :
    classifyLight r t = specBucket r t := by
  have hd2 : t - r ≤ 360 := by linarith
  simp only [classifyLight, specBucket, wrap360]
  by_cases hneg : t - r < 0
  · have hfl : ⌊(t - r) / 360⌋ = (-1 : ℤ) := by
      rw [Int.floor_eq_iff]
      constructor
      · push_cast
        rw [le_div_iff₀ (by norm_num : (0:ℚ) < 360)]
        linarith
      · push_cast
        rw [div_lt_iff₀ (by norm_num : (0:ℚ) < 360)]
        linarith
    rw [if_pos hneg, hfl]
    congr 1
    push_cast
    ring
  · by_cases h360 : t - r < 360
    · have hfl : ⌊(t - r) / 360⌋ = (0 : ℤ) := by
        rw [Int.floor_eq_iff]
        constructor
        · push_cast
          exact div_nonneg (by linarith) (by norm_num)
        · push_cast
          rw [div_lt_iff₀ (by norm_num : (0:ℚ) < 360)]
          linarith
      rw [if_neg hneg, hfl]
      congr 1
      push_cast
      ring
    · have heq : t - r = 360 := le_antisymm hd2 (not_lt.mp h360)
      rw [if_neg hneg, heq]
      have hfl : ⌊(360:ℚ) / 360⌋ = (1 : ℤ) := by norm_num
      rw [hfl]
      norm_num [bucketOfDiff]

theorem bucketList_addToBucket (d : GroupBuckets) (b k : Bucket) (t : GroupLight) :
    bucketList (addToBucket d b t) k
      = if b = k then bucketList d k ++ [t] else bucketList d k := by
  cases b <;> cases k <;> simp [addToBucket, bucketList]

theorem bucketList_fold (ly : Coord) (group : List GroupLight)
    (d0 : GroupBuckets) (k : Bucket) :
    bucketList (group.foldl
        (fun d t => addToBucket d (classifyLight ly t.yaw) t) d0) k
      = bucketList d0 k
          ++ group.filter (fun t => decide (classifyLight ly t.yaw = k)) := by
  induction group generalizing d0 with
  | nil => simp
  | cons t rest ih =>
    rw [List.foldl_cons, ih, bucketList_addToBucket]
    by_cases hb : classifyLight ly t.yaw = k
    · simp [hb, List.filter_cons]
    · simp [hb, List.filter_cons]

/-- C8: for a reference light and its group with headings in the usual
range of the simulator (degrees between -180 and 180), every group member
lands in exactly the bucket of its wrapped heading difference: ref when at
most 45 or above 340, left when strictly between 240 and 300, opposite
when above 160 and at most 240, right otherwise. -/
theorem c8_annotate_buckets (light : GroupLight) (group : List GroupLight)
    (hr1 : -180 ≤ light.yaw) (hr2 : light.yaw ≤ 180)
    (hg : ∀ t ∈ group, -180 ≤ t.yaw ∧ t.yaw ≤ 180) :
    ∀ t ∈ group, ∀ k : Bucket,
      (t ∈ bucketList (annotate_trafficlight_in_group light group) k ↔
        specBucket light.yaw t.yaw = k) := by
  intro t ht k
  have hemp : bucketList ⟨[], [], [], []⟩ k = [] := by cases k <;> rfl
  rw [annotate_trafficlight_in_group, bucketList_fold, hemp, List.nil_append,
    List.mem_filter]
  constructor
  · rintro ⟨hmem, hcl⟩
    have hcl2 : classifyLight light.yaw t.yaw = k := of_decide_eq_true hcl
    rw [← classify_eq_spec hr1 hr2 (hg t hmem).1 (hg t hmem).2]
    simpa [bucketList] using hcl2
  · intro hspec
    refine ⟨by simpa [bucketList] using ht, ?_⟩
    rw [decide_eq_true_iff]
    rw [classify_eq_spec hr1 hr2 (hg t ht).1 (hg t ht).2]
    exact hspec

/-- A concrete intersection group: lights ahead, to the right, opposite
and to the left of the reference heading. -/
def demoGroup : List GroupLight :=
  [⟨0, 0⟩, ⟨1, 90⟩, ⟨2, 180⟩, ⟨3, -90⟩]

theorem c8_annotate_buckets_witness :
    (⟨3, -90⟩ : GroupLight)
      ∈ bucketList (annotate_trafficlight_in_group ⟨0, 0⟩ demoGroup)
          Bucket.left :=
  (c8_annotate_buckets ⟨0, 0⟩ demoGroup (by norm_num) (by norm_num)
      (by decide) ⟨3, -90⟩ (by decide) Bucket.left).mpr (by
    have hfl : ⌊((-90:ℚ) - 0) / 360⌋ = (-1 : ℤ) := by
      rw [Int.floor_eq_iff]
      norm_num
    simp only [specBucket, wrap360, hfl]
    norm_num [bucketOfDiff])

/-! Traffic-light state override and restore (update_light_states,
reset_lights). -/

/-- The discrete signal states of carla.TrafficLightState. -/
inductive TLColor
  | red
  | yellow
  | green
  | off
deriving DecidableEq

/-- The mutable state of one traffic light: the signal state plus the
three phase durations read by get_state, get_green_time, get_red_time and
get_yellow_time. -/
structure TLState where
  state : TLColor
  greenTime : Coord
  redTime : Coord
  yellowTime : Coord
deriving DecidableEq

/-- Light identities. -/
abbrev LId := ℤ

/-- The mutable lights of the world, as a total assignment of states. -/
abbrev LightWorld := LId → TLState

/-- Write one light's full state. -/
def setLight (w : LightWorld) (l : LId) (st : TLState) : LightWorld :=
  fun x => if x = l then st else w x

/-- One entry of reset_params: the light with its saved state and saved
durations. -/
structure ResetRecord where
  light : LId
  state : TLColor
  greenTime : Coord
  redTime : Coord
  yellowTime : Coord
deriving DecidableEq

/-- The states argument of update_light_states: the desired color per
bucket key, an absent key meaning the bucket is not requested. -/
structure DesiredStates where
  ego : Option TLColor
  ref : Option TLColor
  left : Option TLColor
  right : Option TLColor
  opposite : Option TLColor

/-- The annotations argument as update_light_states reads it: the light
identities listed under each bucket key. -/
structure LightIdBuckets where
  ref : List LId
  left : List LId
  right : List LId
  opposite : List LId

/-- The lights one update_light_states call touches, paired with the color
requested for each, in application order: ego first, then the ref, left,
right and opposite buckets (the order of the five blocks of lines 242
to 325). -/
def touchPairs (egoLight : LId) (ann : LightIdBuckets)
    (states : DesiredStates) : List (LId × TLColor) :=
  (match states.ego with
    | some c => [(egoLight, c)]
    | none => []) ++
  (match states.ref with
    | some c => ann.ref.map (fun l => (l, c))
    | none => []) ++
  (match states.left with
    | some c => ann.left.map (fun l => (l, c))
    | none => []) ++
  (match states.right with
    | some c => ann.right.map (fun l => (l, c))
    | none => []) ++
  (match states.opposite with
    | some c => ann.opposite.map (fun l => (l, c))
    | none => [])

/-- One override of lines 243 to 257 (the same block repeats per bucket):
snapshot the light's state and three durations into a reset record, set
the requested state, and, when freezing, pin the three durations to the
timeout. -/
def overrideLight (freeze : Bool) (timeout : Coord) (w : LightWorld)
    (p : LId × TLColor) : ResetRecord × LightWorld :=
  let prev := w p.1
  (⟨p.1, prev.state, prev.greenTime, prev.redTime, prev.yellowTime⟩,
    setLight w p.1
      { state := p.2,
        greenTime := if freeze then timeout else prev.greenTime,
        redTime := if freeze then timeout else prev.redTime,
        yellowTime := if freeze then timeout else prev.yellowTime })

/-- All overrides of one call, in order, accumulating the reset records. -/
def runOverrides (freeze : Bool) (timeout : Coord) :
    List (LId × TLColor) → LightWorld → List ResetRecord × LightWorld
  | [], w => ([], w)
  | p :: rest, w =>
    let first := overrideLight freeze timeout w p
    let later := runOverrides freeze timeout rest first.2
    (first.1 :: later.1, later.2)

/-- CarlaDataProvider.update_light_states (lines 236 to 327): process the
requested buckets in the order ego, ref, left, right, opposite, and
return the reset records in application order together with the mutated
lights. -/
def update_light_states (egoLight : LId) (ann : LightIdBuckets)
    (states : DesiredStates) (freeze : Bool) (timeout : Coord)
    (w : LightWorld) : List ResetRecord × LightWorld :=
  runOverrides freeze timeout (touchPairs egoLight ann states) w

/-- CarlaDataProvider.reset_lights (lines 329 to 338): replay each record's
saved state and saved durations onto its light, in list order. -/
def reset_lights : List ResetRecord → LightWorld → LightWorld
  | [], w => w
  | p :: rest, w =>
    reset_lights rest
      (setLight w p.light ⟨p.state, p.greenTime, p.redTime, p.yellowTime⟩)

theorem setLight_comm {l l2 : LId} (hne : l ≠ l2) (w : LightWorld)
    (v v2 : TLState) :
    setLight (setLight w l v) l2 v2 = setLight (setLight w l2 v2) l v := by
  funext x
  have hne2 : ¬l2 = l := fun h => hne h.symm
  by_cases h1 : x = l2
  · have h2 : ¬x = l := fun h => hne (h.symm.trans h1)
    simp [setLight, h1, h2, hne, hne2]
  · by_cases h2 : x = l
    · simp [setLight, h1, h2, hne, hne2]
    · simp [setLight, h1, h2]

theorem runOverrides_lights (freeze : Bool) (timeout : Coord)
    (ps : List (LId × TLColor)) (w : LightWorld) :
    ((runOverrides freeze timeout ps w).1).map ResetRecord.light
      = ps.map Prod.fst := by
  induction ps generalizing w with
  | nil => rfl
  | cons p rest ih => simp [runOverrides, overrideLight, ih]

theorem reset_lights_setLight (rs : List ResetRecord) {l : LId}
    (hl : l ∉ rs.map ResetRecord.light) (w : LightWorld) (v : TLState) :
    reset_lights rs (setLight w l v) = setLight (reset_lights rs w) l v := by
  induction rs generalizing w with
  | nil => rfl
  | cons r rest ih =>
    have hne : r.light ≠ l := by
      intro h
      exact hl (by rw [List.map_cons, h]; exact List.mem_cons_self _ _)
    have hrest : l ∉ rest.map ResetRecord.light := by
      intro h
      exact hl (by rw [List.map_cons]; exact List.mem_cons_of_mem _ h)
    show reset_lights rest
        (setLight (setLight w l v) r.light
          ⟨r.state, r.greenTime, r.redTime, r.yellowTime⟩) = _
    rw [setLight_comm (Ne.symm hne), ih hrest]
    rfl

theorem runOverrides_reset (freeze : Bool) (timeout : Coord)
    (ps : List (LId × TLColor)) (w : LightWorld)
    (hnd : (ps.map Prod.fst).Nodup) :
    ∀ x, reset_lights (runOverrides freeze timeout ps w).1
        (runOverrides freeze timeout ps w).2 x = w x := by
  induction ps generalizing w with
  | nil => intro x; rfl
  | cons p rest ih =>
    have hp : p.1 ∉ rest.map Prod.fst := (List.nodup_cons.mp hnd).1
    have hr : (rest.map Prod.fst).Nodup := (List.nodup_cons.mp hnd).2
    intro x
    have hsaved :
        (⟨(w p.1).state, (w p.1).greenTime, (w p.1).redTime,
            (w p.1).yellowTime⟩ : TLState) = w p.1 := rfl
    show reset_lights
        ((overrideLight freeze timeout w p).1
          :: (runOverrides freeze timeout rest
                (overrideLight freeze timeout w p).2).1)
        (runOverrides freeze timeout rest
          (overrideLight freeze timeout w p).2).2 x = w x
    rw [reset_lights]
    have hlights : p.1 ∉ ((runOverrides freeze timeout rest
        (overrideLight freeze timeout w p).2).1).map ResetRecord.light := by
      rw [runOverrides_lights]
      exact hp
    rw [show (⟨((overrideLight freeze timeout w p).1).state,
          ((overrideLight freeze timeout w p).1).greenTime,
          ((overrideLight freeze timeout w p).1).redTime,
          ((overrideLight freeze timeout w p).1).yellowTime⟩ : TLState)
        = w p.1 from rfl]
    rw [show ((overrideLight freeze timeout w p).1).light = p.1 from rfl]
    rw [reset_lights_setLight _ hlights]
    by_cases hx : x = p.1
    · simp [setLight, hx]
    · have := ih (overrideLight freeze timeout w p).2 hr x
      simp only [setLight, if_neg hx]
      rw [this]
      show setLight w p.1 _ x = w x
      simp [setLight, hx]

/-- C2 counterexample: with the ego light also listed in the requested ref
bucket (exactly what annotate_trafficlight_in_group produces, since the
reference light's own heading difference of zero classifies as ref) and
both ego and ref requested, updating then resetting leaves light 0 at the
ego override color instead of its original state: the second reset record
replays the intermediate snapshot over the restored original. -/
def cexWorld : LightWorld := fun _ => ⟨TLColor.green, 10, 11, 12⟩

/-- The desired-states argument of the counterexample: ego red, ref
yellow, nothing else requested. -/
def cexStates : DesiredStates :=
  ⟨some TLColor.red, some TLColor.yellow, none, none, none⟩

/-- The annotations argument of the counterexample: the ego light itself
sits in the ref bucket. -/
def cexBuckets : LightIdBuckets := ⟨[0], [], [], []⟩

theorem c2_counterexample :
    reset_lights
        (update_light_states 0 cexBuckets cexStates false 1000000000 cexWorld).1
        (update_light_states 0 cexBuckets cexStates false 1000000000 cexWorld).2 0
      ≠ cexWorld 0 := by decide

/-- C2 (amended): for every set of lights, annotation dictionary,
non-empty requested subset of ego, ref, left, right, opposite and both
freeze values, PROVIDED the touched lights are pairwise distinct (in
particular the ego light is not also listed in a requested bucket),
update_light_states followed by reset_lights on the returned records
restores every light's state and all three durations to exactly their
pre-override values. Without that proviso the claim fails, as the
counterexample shows. -/
theorem c2_update_then_reset (egoLight : LId) (ann : LightIdBuckets)
    (states : DesiredStates) (freeze : Bool) (timeout : Coord)
    (w : LightWorld)
    (hnd : ((touchPairs egoLight ann states).map Prod.fst).Nodup) :
    ∀ l, reset_lights
        (update_light_states egoLight ann states freeze timeout w).1
        (update_light_states egoLight ann states freeze timeout w).2 l
      = w l :=
  runOverrides_reset freeze timeout (touchPairs egoLight ann states) w hnd

/-- A two-state light world used to instantiate the restore theorem. -/
def demoLightWorld : LightWorld :=
  fun l => if l = 1 then ⟨TLColor.green, 1, 2, 3⟩ else ⟨TLColor.red, 4, 5, 6⟩

theorem c2_update_then_reset_witness :
    reset_lights
        (update_light_states 1 ⟨[2], [], [], [3]⟩
          ⟨some TLColor.red, some TLColor.green, none, none, some TLColor.yellow⟩
          true 77 demoLightWorld).1
        (update_light_states 1 ⟨[2], [], [], [3]⟩
          ⟨some TLColor.red, some TLColor.green, none, none, some TLColor.yellow⟩
          true 77 demoLightWorld).2 2
      = demoLightWorld 2 :=
  c2_update_then_reset 1 ⟨[2], [], [], [3]⟩
    ⟨some TLColor.red, some TLColor.green, none, none, some TLColor.yellow⟩
    true 77 demoLightWorld (by decide) 2


/-! Actor spawning (CarlaActorPool.setup_actor, request_new_actor). -/

/-- The spawn-related answers of the simulator for one setup_actor call:
the try_spawn_actor result of the i-th attempt, and the random.choice
draw from _spawn_points at the i-th attempt. -/
structure SpawnWorld where
  trySpawnAt : ℕ → Transform → Option Actor
  randomSpawnPoint : ℕ → Transform

/-- The two local transform objects of the exact-pose branch: the
caller's spawn_point argument and the freshly constructed copy the source
mutates (the source comments that writing through spawn_point directly
would modify it permanently). -/
structure SpawnPointFrame where
  spawn_point : Transform
  fresh : Transform

/-- Lines 530 to 533, statement by statement: build the fresh transform
from a zero location and the argument's rotation, then write the
argument's x, the argument's y, and the argument's z plus 0.2 into the
fresh object's location. No statement writes the spawn_point object. -/
def liftSpawnPoint (sp : Transform) : SpawnPointFrame :=
  let f0 : SpawnPointFrame := ⟨sp, ⟨⟨0, 0, 0⟩, sp.rotation⟩⟩
  let f1 := { f0 with fresh :=
    { f0.fresh with location := { f0.fresh.location with x := f0.spawn_point.location.x } } }
  let f2 := { f1 with fresh :=
    { f1.fresh with location := { f1.fresh.location with y := f1.spawn_point.location.y } } }
  { f2 with fresh :=
    { f2.fresh with location := { f2.fresh.location with z := f2.spawn_point.location.z + 0.2 } } }

/-- The outcome of the spawn phase of setup_actor. -/
inductive SetupOut
  | spawned (a : Actor)
  | spawnFailure
  | outOfFuel
deriving DecidableEq

/-- The retry loop of lines 521 to 525: while no actor was produced, draw
a random candidate pose and try to spawn there. The source loop has no
exit on persistent rejection; the fuel argument bounds how many attempts
the model unrolls, and outOfFuel means the loop is still running. -/
def spawnRandomLoop (w : SpawnWorld) : ℕ → ℕ → SetupOut
  | 0, _ => SetupOut.outOfFuel
  | fuel + 1, i =>
    match w.trySpawnAt i (w.randomSpawnPoint i) with
    | some a => SetupOut.spawned a
    | none => spawnRandomLoop w fuel (i + 1)

/-- The spawn phase of CarlaActorPool.setup_actor (lines 521 to 538): with
random_location, retry at random candidate poses; otherwise one attempt
at the lifted copy of the exact pose, where a None result raises the
RuntimeError the specification calls SpawnFailure. Blueprint resolution
(lines 479 to 519) precedes this phase and touches no pose; autopilot and
the post-spawn tick (lines 539 to 549) follow it and do not change the
outcome. -/
def setup_actor_spawn (w : SpawnWorld) (spawn_point : Transform)
    (random_location : Bool) (fuel : ℕ) : SetupOut :=
  if random_location then
    spawnRandomLoop w fuel 0
  else
    match w.trySpawnAt 0 (liftSpawnPoint spawn_point).fresh with
    | some a => SetupOut.spawned a
    | none => SetupOut.spawnFailure

/-- CarlaActorPool.request_new_actor (lines 721 to 735): run setup_actor
and, only on success, insert the actor into the pool keyed by identity; a
setup failure propagates (modelled as none) with the pool untouched. -/
def request_new_actor (w : SpawnWorld) (pool : List (ℤ × Actor))
    (spawn_point : Transform) (random_location : Bool) (fuel : ℕ) :
    Option Actor × List (ℤ × Actor) :=
  match setup_actor_spawn w spawn_point random_location fuel with
  | SetupOut.spawned a => (some a, setKey pool a.id a)
  | SetupOut.spawnFailure => (none, pool)
  | SetupOut.outOfFuel => (none, pool)

theorem spawnRandomLoop_reject (w : SpawnWorld)
    (h : ∀ i, w.trySpawnAt i (w.randomSpawnPoint i) = none) :
    ∀ fuel i, spawnRandomLoop w fuel i = SetupOut.outOfFuel := by
  intro fuel
  induction fuel with
  | zero => intro i; rfl
  | succ n ih =>
    intro i
    rw [spawnRandomLoop, h i]
    exact ih (i + 1)

/-- The zero pose. -/
def zeroPose : Transform := ⟨⟨0, 0, 0⟩, ⟨0, 0, 0⟩⟩

/-- A simulator that rejects every spawn attempt. -/
def rejectWorld : SpawnWorld :=
  ⟨fun _ _ => none, fun _ => zeroPose⟩

/-- Against the always-rejecting simulator in random-location mode, after
any number of retry steps the loop is still running and the call has not
raised SpawnFailure. -/
def randomModeNeverFails : Prop :=
  ∀ fuel : ℕ,
    setup_actor_spawn rejectWorld zeroPose true fuel = SetupOut.outOfFuel ∧
      setup_actor_spawn rejectWorld zeroPose true fuel ≠ SetupOut.spawnFailure

/-- C4 counterexample: with random_location set and a simulator rejecting
every attempt, setup_actor does not fail with SpawnFailure as the claim
states: the while-not-actor loop of lines 522 to 525 retries forever, so
no number of attempts produces the error. -/
theorem c4_counterexample : randomModeNeverFails := by
  intro fuel
  have h := spawnRandomLoop_reject rejectWorld (fun _ => rfl) fuel 0
  refine ⟨h, ?_⟩
  rw [show setup_actor_spawn rejectWorld zeroPose true fuel
      = spawnRandomLoop rejectWorld fuel 0 from rfl, h]
  decide

/-- C4 (amended): setup_actor fails with SpawnFailure when the simulator
rejects the single attempt of exact-pose mode (at the pose lifted 0.2 in
z); in random-location mode a simulator rejecting every drawn candidate
keeps the retry loop running forever and no SpawnFailure ever surfaces;
and whenever setup_actor produces no actor, request_new_actor returns
none and leaves the actor pool exactly unchanged. -/
theorem c4_spawn_failure (w : SpawnWorld) (sp : Transform)
    (pool : List (ℤ × Actor)) (fuel : ℕ) :
    (w.trySpawnAt 0 (liftSpawnPoint sp).fresh = none →
      setup_actor_spawn w sp false fuel = SetupOut.spawnFailure) ∧
    ((∀ i, w.trySpawnAt i (w.randomSpawnPoint i) = none) →
      setup_actor_spawn w sp true fuel = SetupOut.outOfFuel) ∧
    (∀ rl : Bool, setup_actor_spawn w sp rl fuel = SetupOut.spawnFailure →
      request_new_actor w pool sp rl fuel = (none, pool)) ∧
    (∀ rl : Bool, setup_actor_spawn w sp rl fuel = SetupOut.outOfFuel →
      request_new_actor w pool sp rl fuel = (none, pool)) := by
  refine ⟨?_, ?_, ?_, ?_⟩
  · intro h
    simp [setup_actor_spawn, h]
  · intro h
    exact spawnRandomLoop_reject w h fuel 0
  · intro rl h
    simp [request_new_actor, h]
  · intro rl h
    simp [request_new_actor, h]

theorem c4_spawn_failure_witness :
    setup_actor_spawn rejectWorld zeroPose false 3 = SetupOut.spawnFailure ∧
      request_new_actor rejectWorld [] zeroPose false 3 = (none, []) := by
  have h1 := (c4_spawn_failure rejectWorld zeroPose [] 3).1 rfl
  exact ⟨h1, (c4_spawn_failure rejectWorld zeroPose [] 3).2.2.1 false h1⟩

/-- C10: the exact-pose branch of setup_actor never writes the caller's
spawn_point: after the statement sequence the frame's spawn_point equals
the argument, the freshly built pose carries the argument's x and y, its
z plus 0.2, and its rotation, and the one spawn attempt of exact-pose
mode is made at exactly that fresh pose. -/
theorem c10_spawn_point_unchanged (sp : Transform) :
    (liftSpawnPoint sp).spawn_point = sp ∧
    (liftSpawnPoint sp).fresh
      = ⟨⟨sp.location.x, sp.location.y, sp.location.z + 0.2⟩, sp.rotation⟩ ∧
    ∀ (w : SpawnWorld) (fuel : ℕ),
      setup_actor_spawn w sp false fuel
        = match w.trySpawnAt 0
              ⟨⟨sp.location.x, sp.location.y, sp.location.z + 0.2⟩,
                sp.rotation⟩ with
          | some a => SetupOut.spawned a
          | none => SetupOut.spawnFailure :=
  ⟨rfl, rfl, fun _ _ => rfl⟩

/-! Next traffic light lookup (get_next_traffic_light). -/

/-- The lane map as the waypoint traversal consumes it, with waypoints
indexed by naturals: getWaypointAt is map.get_waypoint, laneStep w d is
waypoint.next(d) (a list, empty once the lane graph is exhausted),
isIntersection is waypoint.is_intersection, and waypointLoc is
waypoint.transform.location. -/
structure LaneMap where
  getWaypointAt : Location → Option ℕ
  laneStep : ℕ → Coord → List ℕ
  isIntersection : ℕ → Bool
  waypointLoc : ℕ → Location

/-- A registered traffic light as the selection loop reads it: identity,
whether the object has a trigger_volume attribute, and the trigger
volume's local location. -/
structure RegLight where
  lid : ℤ
  hasTriggerVolume : Bool
  triggerLoc : Location
deriving DecidableEq

/-- Squared Euclidean distance between two points. carla.Location.distance
is the Euclidean distance; squaring is strictly monotone on nonnegative
reals, so the strict comparisons of the source coincide with the same
comparisons of squared distances, which keeps the embedding executable. -/
def dist2 (p q : Location) : Coord :=
  (p.x - q.x) ^ 2 + (p.y - q.y) ^ 2 + (p.z - q.z) ^ 2

/-- How the waypoint-collection loop of lines 354 to 357 ends. -/
inductive TraverseOut
  | collected (ws : List ℕ)
  | indexError
  | outOfFuel
deriving DecidableEq

/-- Lines 354 to 357: while the waypoint is set and not an intersection,
append it to the list and step to the first element of next(2.0). Taking
the first element of an empty list raises IndexError; the fuel bounds the
unrolling of the unbounded source loop. -/
def collectWaypoints (M : LaneMap) : ℕ → Option ℕ → List ℕ → TraverseOut
  | 0, _, _ => TraverseOut.outOfFuel
  | _ + 1, none, acc => TraverseOut.collected acc
  | fuel + 1, some w, acc =>
    if M.isIntersection w then TraverseOut.collected acc
    else
      match M.laneStep w 2 with
      | [] => TraverseOut.indexError
      | n :: _ => collectWaypoints M fuel (some n) (acc ++ [w])

/-- The squared distance of one registry entry's transformed trigger
location to the target point (lines 369 to 370); applyT stands for the
external carla.Transform.transform. -/
def entryDist (target : Location) (applyT : Transform → Location → Location)
    (e : RegLight × Transform) : Coord :=
  dist2 (applyT e.2 e.1.triggerLoc) target

/-- One step of the selection loop of lines 366 to 374: entries without a
trigger_volume attribute are skipped; otherwise the entry replaces the
running best exactly when its distance is strictly smaller (None stands
for the initial float infinity). -/
def selectStep (target : Location) (applyT : Transform → Location → Location)
    (acc : Option RegLight × Option Coord) (e : RegLight × Transform) :
    Option RegLight × Option Coord :=
  if e.1.hasTriggerVolume then
    match acc.2 with
    | none => (some e.1, some (entryDist target applyT e))
    | some b =>
      if entryDist target applyT e < b then
        (some e.1, some (entryDist target applyT e))
      else acc
  else acc

/-- Lines 363 to 374: scan the registered lights in registration order,
keeping the first light whose transformed trigger location strictly
improves on the best distance so far. -/
def selectClosest (target : Location)
    (applyT : Transform → Location → Location)
    (registry : List (RegLight × Transform)) :
    Option RegLight × Option Coord :=
  registry.foldl (selectStep target applyT) (none, none)

/-- The possible outcomes of get_next_traffic_light. -/
inductive GntlOut
  | found (r : Option RegLight)
  | indexError
  | outOfFuel
deriving DecidableEq

/-- CarlaDataProvider.get_next_traffic_light (lines 340 to 376). The loc
argument is the position lines 347 to 350 produced (cached or live, by
the use_cached_location flag); the registry is the _traffic_light_map
prepare_map has just rebuilt, in registration order, each light paired
with its stored transform. -/
def get_next_traffic_light (M : LaneMap)
    (applyT : Transform → Location → Location)
    (registry : List (RegLight × Transform)) (loc : Location) (fuel : ℕ) :
    GntlOut :=
  match collectWaypoints M fuel (M.getWaypointAt loc) [] with
  | TraverseOut.outOfFuel => GntlOut.outOfFuel
  | TraverseOut.indexError => GntlOut.indexError
  | TraverseOut.collected ws =>
    match ws.getLast? with
    | none => GntlOut.found none
    | some wl =>
      GntlOut.found (selectClosest (M.waypointLoc wl) applyT registry).1

/-- The light the selection loop should produce, by recursion over the
registration order: among entries with a trigger volume, the first one
attaining the minimum distance (an earlier entry wins a tie). -/
def firstClosest (target : Location)
    (applyT : Transform → Location → Location) :
    List (RegLight × Transform) → Option (RegLight × Coord)
  | [] => none
  | e :: rest =>
    if e.1.hasTriggerVolume then
      match firstClosest target applyT rest with
      | none => some (e.1, entryDist target applyT e)
      | some (q, dq) =>
        if entryDist target applyT e ≤ dq then
          some (e.1, entryDist target applyT e)
        else some (q, dq)
    else firstClosest target applyT rest

theorem foldl_selectStep_some (target : Location)
    (applyT : Transform → Location → Location)
    (l : List (RegLight × Transform)) :
    ∀ (b : RegLight) (db : Coord),
      l.foldl (selectStep target applyT) (some b, some db)
        = match firstClosest target applyT l with
          | none => (some b, some db)
          | some (q, dq) =>
            if dq < db then (some q, some dq) else (some b, some db) := by
  induction l with
  | nil => intro b db; rfl
  | cons e rest ih =>
    intro b db
    by_cases htv : e.1.hasTriggerVolume
    · rw [List.foldl_cons]
      by_cases hlt : entryDist target applyT e < db
      · rw [show selectStep target applyT (some b, some db) e
            = (some e.1, some (entryDist target applyT e)) by
          simp [selectStep, htv, hlt]]
        rw [ih]
        rw [show firstClosest target applyT (e :: rest)
            = if e.1.hasTriggerVolume then
                match firstClosest target applyT rest with
                | none => some (e.1, entryDist target applyT e)
                | some (q, dq) =>
                  if entryDist target applyT e ≤ dq then
                    some (e.1, entryDist target applyT e)
                  else some (q, dq)
              else firstClosest target applyT rest from rfl]
        rw [if_pos htv]
        cases hfc : firstClosest target applyT rest with
        | none => simp [hlt]
        | some p =>
          obtain ⟨q, dq⟩ := p
          by_cases hle : entryDist target applyT e ≤ dq
          · simp [hle, hlt]
          · have h2 : dq < entryDist target applyT e := not_le.mp hle
            have h3 : dq < db := lt_trans h2 hlt
            simp [h2, hle, h3]
      · rw [show selectStep target applyT (some b, some db) e
            = (some b, some db) by simp [selectStep, htv, hlt]]
        rw [ih]
        rw [show firstClosest target applyT (e :: rest)
            = if e.1.hasTriggerVolume then
                match firstClosest target applyT rest with
                | none => some (e.1, entryDist target applyT e)
                | some (q, dq) =>
                  if entryDist target applyT e ≤ dq then
                    some (e.1, entryDist target applyT e)
                  else some (q, dq)
              else firstClosest target applyT rest from rfl]
        rw [if_pos htv]
        cases hfc : firstClosest target applyT rest with
        | none => simp [hlt]
        | some p =>
          obtain ⟨q, dq⟩ := p
          by_cases hle : entryDist target applyT e ≤ dq
          · have h4 : ¬entryDist target applyT e < db := hlt
            have h5 : ¬dq < db := fun hc =>
              h4 (lt_of_le_of_lt hle hc)
            simp [hle, h5, hlt]
          · simp [hle]
    · rw [List.foldl_cons]
      rw [show selectStep target applyT (some b, some db) e
          = (some b, some db) by simp [selectStep, htv]]
      rw [ih]
      rw [show firstClosest target applyT (e :: rest)
          = firstClosest target applyT rest by
        rw [firstClosest]
        simp [htv]]

theorem selectClosest_eq_firstClosest (target : Location)
    (applyT : Transform → Location → Location)
    (l : List (RegLight × Transform)) :
    selectClosest target applyT l
      = match firstClosest target applyT l with
        | none => (none, none)
        | some (q, dq) => (some q, some dq) := by
  induction l with
  | nil => rfl
  | cons e rest ih =>
    by_cases htv : e.1.hasTriggerVolume
    · rw [selectClosest, List.foldl_cons]
      rw [show selectStep target applyT (none, none) e
          = (some e.1, some (entryDist target applyT e)) by
        simp [selectStep, htv]]
      rw [foldl_selectStep_some]
      rw [show firstClosest target applyT (e :: rest)
          = if e.1.hasTriggerVolume then
              match firstClosest target applyT rest with
              | none => some (e.1, entryDist target applyT e)
              | some (q, dq) =>
                if entryDist target applyT e ≤ dq then
                  some (e.1, entryDist target applyT e)
                else some (q, dq)
            else firstClosest target applyT rest from rfl]
      rw [if_pos htv]
      cases hfc : firstClosest target applyT rest with
      | none => simp
      | some p =>
        obtain ⟨q, dq⟩ := p
        by_cases hle : entryDist target applyT e ≤ dq
        · have h1 : ¬dq < entryDist target applyT e := not_lt.mpr hle
          simp [h1, hle]
        · have h2 : dq < entryDist target applyT e := not_le.mp hle
          simp [h2, hle]
    · rw [selectClosest, List.foldl_cons]
      rw [show selectStep target applyT (none, none) e
          = (none, none) by simp [selectStep, htv]]
      rw [show firstClosest target applyT (e :: rest)
          = firstClosest target applyT rest by
        rw [firstClosest]
        simp [htv]]
      exact ih

theorem firstClosest_cons_isSome (target : Location)
    (applyT : Transform → Location → Location) (e : RegLight × Transform)
    (rest : List (RegLight × Transform))
    (htv : e.1.hasTriggerVolume = true) :
    (firstClosest target applyT (e :: rest)).isSome = true := by
  rw [firstClosest, if_pos htv]
  cases firstClosest target applyT rest with
  | none => rfl
  | some p =>
    obtain ⟨q, dq⟩ := p
    show (if entryDist target applyT e ≤ dq then
        some (e.1, entryDist target applyT e)
      else some (q, dq)).isSome = true
    by_cases hle : entryDist target applyT e ≤ dq
    · rw [if_pos hle]
      rfl
    · rw [if_neg hle]
      rfl

theorem firstClosest_none_iff (target : Location)
    (applyT : Transform → Location → Location)
    (l : List (RegLight × Transform)) :
    firstClosest target applyT l = none ↔
      ∀ x ∈ l, x.1.hasTriggerVolume = false := by
  induction l with
  | nil => simp [firstClosest]
  | cons e rest ih =>
    by_cases htv : e.1.hasTriggerVolume
    · constructor
      · intro h
        have hs := firstClosest_cons_isSome target applyT e rest htv
        rw [h] at hs
        exact absurd hs (by simp)
      · intro h
        exact absurd htv (by simpa using (h e (List.mem_cons_self e rest)))
    · rw [show firstClosest target applyT (e :: rest)
          = firstClosest target applyT rest by
        rw [firstClosest, if_neg htv]]
      rw [ih]
      constructor
      · intro h x hx
        rcases List.mem_cons.mp hx with hx | hx
        · rw [hx]
          exact Bool.of_not_eq_true htv
        · exact h x hx
      · intro h x hx
        exact h x (List.mem_cons_of_mem e hx)

theorem firstClosest_spec (target : Location)
    (applyT : Transform → Location → Location)
    (l : List (RegLight × Transform)) (q : RegLight) (dq : Coord)
    (h : firstClosest target applyT l = some (q, dq)) :
    (∀ x ∈ l, x.1.hasTriggerVolume = true →
        dq ≤ entryDist target applyT x) ∧
      ∃ pre e post, l = pre ++ e :: post ∧ e.1 = q ∧
        e.1.hasTriggerVolume = true ∧ entryDist target applyT e = dq ∧
        ∀ x ∈ pre, x.1.hasTriggerVolume = true →
          dq < entryDist target applyT x := by
  induction l generalizing q dq with
  | nil => exact absurd h (by simp [firstClosest])
  | cons a rest ih =>
    by_cases htv : a.1.hasTriggerVolume
    · cases hfc : firstClosest target applyT rest with
      | none =>
        have hh : firstClosest target applyT (a :: rest)
            = some (a.1, entryDist target applyT a) := by
          rw [firstClosest, if_pos htv, hfc]
        rw [hh] at h
        have hq : a.1 = q ∧ entryDist target applyT a = dq := by
          have hp := Option.some.inj h
          exact ⟨congrArg Prod.fst hp, congrArg Prod.snd hp⟩
        have hnone := (firstClosest_none_iff target applyT rest).mp hfc
        constructor
        · intro x hx hxtv
          rcases List.mem_cons.mp hx with hx | hx
          · rw [hx, ← hq.2]
          · exact absurd hxtv (by simp [hnone x hx])
        · exact ⟨[], a, rest, rfl, hq.1, htv, hq.2,
            fun x hx => absurd hx (List.not_mem_nil x)⟩
      | some p =>
        obtain ⟨q0, dq0⟩ := p
        obtain ⟨hmin0, pre0, e0, post0, hsplit0, he0, htv0, hd0, hpre0⟩ :=
          ih q0 dq0 hfc
        by_cases hle : entryDist target applyT a ≤ dq0
        · have hh : firstClosest target applyT (a :: rest)
              = some (a.1, entryDist target applyT a) := by
            rw [firstClosest, if_pos htv, hfc]
            show (if entryDist target applyT a ≤ dq0 then
                some (a.1, entryDist target applyT a)
              else some (q0, dq0)) = some (a.1, entryDist target applyT a)
            rw [if_pos hle]
          rw [hh] at h
          have hq : a.1 = q ∧ entryDist target applyT a = dq := by
            have hp := Option.some.inj h
            exact ⟨congrArg Prod.fst hp, congrArg Prod.snd hp⟩
          constructor
          · intro x hx hxtv
            rcases List.mem_cons.mp hx with hx | hx
            · rw [hx, ← hq.2]
            · calc dq ≤ dq0 := hq.2 ▸ hle
                _ ≤ entryDist target applyT x := hmin0 x hx hxtv
          · exact ⟨[], a, rest, rfl, hq.1, htv, hq.2,
              fun x hx => absurd hx (List.not_mem_nil x)⟩
        · have hh : firstClosest target applyT (a :: rest)
              = some (q0, dq0) := by
            rw [firstClosest, if_pos htv, hfc]
            show (if entryDist target applyT a ≤ dq0 then
                some (a.1, entryDist target applyT a)
              else some (q0, dq0)) = some (q0, dq0)
            rw [if_neg hle]
          rw [hh] at h
          have hq : q0 = q ∧ dq0 = dq := by
            have hp := Option.some.inj h
            exact ⟨congrArg Prod.fst hp, congrArg Prod.snd hp⟩
          have hless : dq < entryDist target applyT a :=
            hq.2 ▸ not_le.mp hle
          constructor
          · intro x hx hxtv
            rcases List.mem_cons.mp hx with hx | hx
            · rw [hx]
              exact le_of_lt hless
            · exact hq.2 ▸ hmin0 x hx hxtv
          · refine ⟨a :: pre0, e0, post0, by simp [hsplit0], hq.1 ▸ he0,
              htv0, hq.2 ▸ hd0, ?_⟩
            intro x hx hxtv
            rcases List.mem_cons.mp hx with hx | hx
            · rw [hx]
              exact hless
            · exact hq.2 ▸ hpre0 x hx hxtv
    · rw [show firstClosest target applyT (a :: rest)
          = firstClosest target applyT rest by
        rw [firstClosest, if_neg htv]] at h
      obtain ⟨hmin0, pre0, e0, post0, hsplit0, he0, htv0, hd0, hpre0⟩ :=
        ih q dq h
      constructor
      · intro x hx hxtv
        rcases List.mem_cons.mp hx with hx | hx
        · exact absurd hxtv (by simp [hx, htv])
        · exact hmin0 x hx hxtv
      · refine ⟨a :: pre0, e0, post0, by simp [hsplit0], he0, htv0, hd0, ?_⟩
        intro x hx hxtv
        rcases List.mem_cons.mp hx with hx | hx
        · exact absurd hxtv (by simp [hx, htv])
        · exact hpre0 x hx hxtv

/-- A one-lane map whose single non-intersection waypoint has no next
waypoint at all: the lane graph is exhausted immediately. -/
def cexLane : LaneMap :=
  ⟨fun _ => some 0, fun _ _ => [], fun _ => false, fun _ => ⟨0, 0, 0⟩⟩

/-- The identity transform application used by the concrete instances. -/
def plainApply : Transform → Location → Location := fun _ l => l

/-- A registry holding one light with a trigger volume. -/
def cexRegistry : List (RegLight × Transform) :=
  [(⟨5, true, ⟨0, 0, 0⟩⟩, zeroPose)]

/-- C3 counterexample: with a pre-intersection waypoint collected and a
registered light present, the claim demands the traversal stop on lane
exhaustion and return that light; instead the source evaluates
waypoint.next(2.0)[0] on an empty list and raises IndexError. -/
theorem c3_counterexample :
    get_next_traffic_light cexLane plainApply cexRegistry ⟨0, 0, 0⟩ 10
        = GntlOut.indexError ∧
      get_next_traffic_light cexLane plainApply cexRegistry ⟨0, 0, 0⟩ 10
        ≠ GntlOut.found (some ⟨5, true, ⟨0, 0, 0⟩⟩) := by
  exact ⟨rfl, by decide⟩

/-- C3 (amended): the traversal steps along the lane in increments of 2,
stopping at an intersection boundary or a null waypoint, but raising
IndexError when the lane graph is exhausted mid-traversal; when it ends
with zero collected waypoints the result is none; when no registered
light has a trigger volume (in particular when no light is registered)
the result is none; otherwise the result is the registered light whose
transformed trigger location has minimum distance to the last collected
waypoint, an earlier-registered light winning ties. -/
theorem c3_next_traffic_light (M : LaneMap)
    (applyT : Transform → Location → Location)
    (registry : List (RegLight × Transform)) (loc : Location) (fuel : ℕ) :
    (collectWaypoints M fuel (M.getWaypointAt loc) []
          = TraverseOut.collected [] →
        get_next_traffic_light M applyT registry loc fuel
          = GntlOut.found none) ∧
    (collectWaypoints M fuel (M.getWaypointAt loc) []
          = TraverseOut.indexError →
        get_next_traffic_light M applyT registry loc fuel
          = GntlOut.indexError) ∧
    ∀ ws wl,
      collectWaypoints M fuel (M.getWaypointAt loc) []
          = TraverseOut.collected ws →
      ws.getLast? = some wl →
      ((∀ x ∈ registry, x.1.hasTriggerVolume = false) →
          get_next_traffic_light M applyT registry loc fuel
            = GntlOut.found none) ∧
      (∀ q dq,
          firstClosest (M.waypointLoc wl) applyT registry = some (q, dq) →
          get_next_traffic_light M applyT registry loc fuel
              = GntlOut.found (some q) ∧
            (∀ x ∈ registry, x.1.hasTriggerVolume = true →
                dq ≤ entryDist (M.waypointLoc wl) applyT x) ∧
            ∃ pre e post, registry = pre ++ e :: post ∧ e.1 = q ∧
              e.1.hasTriggerVolume = true ∧
              entryDist (M.waypointLoc wl) applyT e = dq ∧
              ∀ x ∈ pre, x.1.hasTriggerVolume = true →
                dq < entryDist (M.waypointLoc wl) applyT x) := by
  refine ⟨?_, ?_, ?_⟩
  · intro h
    simp [get_next_traffic_light, h]
  · intro h
    simp [get_next_traffic_light, h]
  · intro ws wl hc hl
    constructor
    · intro hall
      have hnone : firstClosest (M.waypointLoc wl) applyT registry = none :=
        (firstClosest_none_iff _ _ _).mpr hall
      have hsel : selectClosest (M.waypointLoc wl) applyT registry
          = (none, none) := by
        rw [selectClosest_eq_firstClosest, hnone]
      simp [get_next_traffic_light, hc, hl, hsel]
    · intro q dq hf
      have hsel : selectClosest (M.waypointLoc wl) applyT registry
          = (some q, some dq) := by
        rw [selectClosest_eq_firstClosest, hf]
      refine ⟨?_, (firstClosest_spec _ _ _ q dq hf).1,
        (firstClosest_spec _ _ _ q dq hf).2⟩
      simp [get_next_traffic_light, hc, hl, hsel]

/-- A two-waypoint lane reaching an intersection after one step, used to
instantiate the amended theorem. -/
def demoLane : LaneMap :=
  ⟨fun _ => some 0,
    fun w _ => if w = 0 then [1] else [],
    fun w => w = 1,
    fun _ => ⟨0, 0, 0⟩⟩

/-- Two registered lights at squared distances 100 and 1 from the last
collected waypoint. -/
def demoRegistry : List (RegLight × Transform) :=
  [(⟨1, true, ⟨10, 0, 0⟩⟩, zeroPose), (⟨2, true, ⟨1, 0, 0⟩⟩, zeroPose)]

theorem c3_next_traffic_light_witness :
    get_next_traffic_light demoLane plainApply demoRegistry ⟨0, 0, 0⟩ 10
      = GntlOut.found (some ⟨2, true, ⟨1, 0, 0⟩⟩) :=
  (((c3_next_traffic_light demoLane plainApply demoRegistry ⟨0, 0, 0⟩ 10).2.2
      [0] 0 (by decide) rfl).2 ⟨2, true, ⟨1, 0, 0⟩⟩ 1
    (by norm_num [firstClosest, entryDist, dist2, demoRegistry, demoLane,
      plainApply])).1

/-! Batched actor creation (CarlaActorPool.setup_batch_actors), on the
vehicle path the claim concerns (models without the walker substring; the
walker path draws poses from the navigation mesh instead of the shared
cursor). -/

instance : Inhabited Transform := ⟨zeroPose⟩

/-- The loop state of the request-building loop of lines 578 to 641: the
shared allocation cursor _spawn_index, the loop-carried spawn_point
variable, and the poses of the spawn requests built so far. -/
structure BuildState where
  spawnIndex : ℕ
  spawnPoint : Option Transform
  batch : List Transform
deriving DecidableEq

/-- Total indexing into the candidate pose list, the zero pose standing
in for an out-of-range index (never reached under the cursor bound). -/
def poseAt : List Transform → ℕ → Transform
  | [], _ => zeroPose
  | p :: _, 0 => p
  | _ :: rest, n + 1 => poseAt rest n

/-- One iteration of the request loop for a vehicle model. With
random_location, lines 601 to 613 resolve the pose: an exhausted cursor
is clamped to the candidate count and resolves no pose; with a hero actor
present, the candidate at the cursor is consumed, and skipped when within
8 length-units of the hero (squared distance below 64), kept otherwise;
with no hero the candidate is consumed and kept. Without random_location
the loop-carried spawn_point is used as it stands. Line 614 then appends
a request exactly when a pose is set. -/
def buildStep (spawnPoints : List Transform) (heroLoc : Option Location)
    (random_location : Bool) (st : BuildState) : BuildState :=
  let st1 :=
    if random_location then
      if spawnPoints.length ≤ st.spawnIndex then
        { st with
          spawnIndex := spawnPoints.length
          spawnPoint := none }
      else
        match heroLoc with
        | some hl =>
          let sp := poseAt spawnPoints st.spawnIndex
          if dist2 hl sp.location < 64 then
            { st with
              spawnIndex := st.spawnIndex + 1
              spawnPoint := none }
          else
            { st with
              spawnIndex := st.spawnIndex + 1
              spawnPoint := some sp }
        | none =>
          { st with
            spawnIndex := st.spawnIndex + 1
            spawnPoint := some (poseAt spawnPoints st.spawnIndex) }
    else st
  match st1.spawnPoint with
  | some sp => { st1 with batch := st1.batch ++ [sp] }
  | none => st1

/-- The request loop, iterated amount times (for _ in range(amount)). -/
def buildBatch (spawnPoints : List Transform) (heroLoc : Option Location)
    (random_location : Bool) : ℕ → BuildState → BuildState
  | 0, st => st
  | n + 1, st =>
    buildBatch spawnPoints heroLoc random_location n
      (buildStep spawnPoints heroLoc random_location st)

/-- The simulator side of one batch call: the per-request response of
apply_batch_sync (an actor id, or None for a per-item error, which the
source prints and drops), the world.get_actors lookup, and whether a
client is bound (without one the source would read the unbound name
responses). -/
structure BatchWorld where
  spawnOutcome : ℕ → Option ℤ
  actorOf : ℤ → Option Actor
  clientBound : Bool

/-- The outcome of setup_batch_actors: the materialized actors with the
final cursor, or the NameError of reading responses with no client. -/
inductive BatchOut
  | done (actors : List Actor) (finalIndex : ℕ)
  | nameError
deriving DecidableEq

/-- CarlaActorPool.setup_batch_actors (lines 560 to 700) on the vehicle
path: build up to amount requests (lines 578 to 641), submit them as one
batch, keep the actor ids of the non-error responses (lines 653 to 667),
and return the actors the world resolves for those ids (lines 680 to
682). heroLoc is the location of the get_hero_actor answer (None when the
hero flag is set or no hero is pooled); the frame barrier, pedestrian
crossing factor and walker-controller phases do not touch the returned
vehicle list. -/
def setup_batch_actors_vehicles (W : BatchWorld)
    (spawnPoints : List Transform) (heroLoc : Option Location)
    (amount spawnIndex0 : ℕ) (spawnPoint0 : Option Transform)
    (random_location : Bool) : BatchOut :=
  let st := buildBatch spawnPoints heroLoc random_location amount
    ⟨spawnIndex0, spawnPoint0, []⟩
  if W.clientBound then
    let responses := (List.range st.batch.length).map W.spawnOutcome
    let actorIds := responses.filterMap id
    BatchOut.done (actorIds.filterMap W.actorOf) st.spawnIndex
  else BatchOut.nameError

theorem buildStep_exhausted (spawnPoints : List Transform)
    (heroLoc : Option Location) (st : BuildState)
    (hex : spawnPoints.length ≤ st.spawnIndex) :
    buildStep spawnPoints heroLoc true st
      = { st with spawnIndex := spawnPoints.length, spawnPoint := none } := by
  simp [buildStep, hex]

theorem buildStep_near_hero (spawnPoints : List Transform) (hl : Location)
    (st : BuildState) (hlt : st.spawnIndex < spawnPoints.length)
    (hnear : dist2 hl (poseAt spawnPoints st.spawnIndex).location < 64) :
    buildStep spawnPoints (some hl) true st
      = { st with spawnIndex := st.spawnIndex + 1, spawnPoint := none } := by
  simp [buildStep, not_le.mpr hlt, hnear]

theorem buildStep_far_hero (spawnPoints : List Transform) (hl : Location)
    (st : BuildState) (hlt : st.spawnIndex < spawnPoints.length)
    (hfar : ¬dist2 hl (poseAt spawnPoints st.spawnIndex).location < 64) :
    buildStep spawnPoints (some hl) true st
      = { spawnIndex := st.spawnIndex + 1,
          spawnPoint := some (poseAt spawnPoints st.spawnIndex),
          batch := st.batch ++ [poseAt spawnPoints st.spawnIndex] } := by
  simp [buildStep, not_le.mpr hlt, hfar]

theorem buildStep_no_hero (spawnPoints : List Transform)
    (st : BuildState) (hlt : st.spawnIndex < spawnPoints.length) :
    buildStep spawnPoints none true st
      = { spawnIndex := st.spawnIndex + 1,
          spawnPoint := some (poseAt spawnPoints st.spawnIndex),
          batch := st.batch ++ [poseAt spawnPoints st.spawnIndex] } := by
  simp [buildStep, not_le.mpr hlt]

theorem buildStep_bounds (spawnPoints : List Transform)
    (heroLoc : Option Location) (st : BuildState)
    (h : st.spawnIndex ≤ spawnPoints.length) :
    (buildStep spawnPoints heroLoc true st).spawnIndex
        ≤ spawnPoints.length ∧
      (buildStep spawnPoints heroLoc true st).batch.length + st.spawnIndex
        ≤ st.batch.length
            + (buildStep spawnPoints heroLoc true st).spawnIndex := by
  by_cases hex : spawnPoints.length ≤ st.spawnIndex
  · rw [buildStep_exhausted spawnPoints heroLoc st hex]
    exact ⟨le_refl _, by simp; omega⟩
  · have hlt : st.spawnIndex < spawnPoints.length := not_le.mp hex
    cases heroLoc with
    | some hl =>
      by_cases hnear :
          dist2 hl (poseAt spawnPoints st.spawnIndex).location < 64
      · rw [buildStep_near_hero spawnPoints hl st hlt hnear]
        exact ⟨hlt, by simp⟩
      · rw [buildStep_far_hero spawnPoints hl st hlt hnear]
        exact ⟨hlt, by simp; omega⟩
    | none =>
      rw [buildStep_no_hero spawnPoints st hlt]
      exact ⟨hlt, by simp; omega⟩

theorem buildBatch_bounds (spawnPoints : List Transform)
    (heroLoc : Option Location) (n : ℕ) (st : BuildState)
    (h : st.spawnIndex ≤ spawnPoints.length) :
    (buildBatch spawnPoints heroLoc true n st).spawnIndex
        ≤ spawnPoints.length ∧
      (buildBatch spawnPoints heroLoc true n st).batch.length
          + st.spawnIndex
        ≤ st.batch.length
            + (buildBatch spawnPoints heroLoc true n st).spawnIndex := by
  induction n generalizing st with
  | zero =>
    rw [buildBatch]
    exact ⟨h, by omega⟩
  | succ m ih =>
    have hstep := buildStep_bounds spawnPoints heroLoc st h
    have hrec := ih (buildStep spawnPoints heroLoc true st) hstep.1
    rw [buildBatch]
    exact ⟨hrec.1, by omega⟩

/-- C5: for a vehicle batch with random_location and a bound client, when
the requested amount exceeds what the shared cursor can still supply, the
call returns normally with fewer materialized actors than requested and a
final cursor bounded by the candidate count; once the cursor reaches the
candidate count an iteration builds no request; and a candidate within 8
length-units of the hero is consumed by the cursor but not spawned. -/
theorem c5_batch_exhaustion (W : BatchWorld)
    (spawnPoints : List Transform) (heroLoc : Option Location)
    (amount spawnIndex0 : ℕ) (spawnPoint0 : Option Transform)
    (hc : W.clientBound = true)
    (hidx : spawnIndex0 ≤ spawnPoints.length)
    (hamt : spawnPoints.length - spawnIndex0 < amount) :
    (∃ actors finalIndex,
        setup_batch_actors_vehicles W spawnPoints heroLoc amount spawnIndex0
            spawnPoint0 true
          = BatchOut.done actors finalIndex ∧
        actors.length < amount ∧ finalIndex ≤ spawnPoints.length) ∧
    (∀ st : BuildState, spawnPoints.length ≤ st.spawnIndex →
        (buildStep spawnPoints heroLoc true st).batch = st.batch ∧
        (buildStep spawnPoints heroLoc true st).spawnPoint = none) ∧
    (∀ (st : BuildState) (hl : Location), heroLoc = some hl →
        st.spawnIndex < spawnPoints.length →
        dist2 hl (poseAt spawnPoints st.spawnIndex).location < 64 →
        (buildStep spawnPoints heroLoc true st).batch = st.batch ∧
        (buildStep spawnPoints heroLoc true st).spawnIndex
            = st.spawnIndex + 1 ∧
        (buildStep spawnPoints heroLoc true st).spawnPoint = none) := by
  refine ⟨?_, ?_, ?_⟩
  · have hb := buildBatch_bounds spawnPoints heroLoc amount
      ⟨spawnIndex0, spawnPoint0, []⟩ hidx
    set st := buildBatch spawnPoints heroLoc true amount
      ⟨spawnIndex0, spawnPoint0, []⟩ with hst
    refine ⟨(((List.range st.batch.length).map W.spawnOutcome).filterMap
        id).filterMap W.actorOf, st.spawnIndex, ?_, ?_, hb.1⟩
    · rw [setup_batch_actors_vehicles]
      simp only [← hst, hc]
      simp
    · have h1 : ((((List.range st.batch.length).map W.spawnOutcome).filterMap
          id).filterMap W.actorOf).length ≤ st.batch.length := by
        calc ((((List.range st.batch.length).map W.spawnOutcome).filterMap
              id).filterMap W.actorOf).length
            ≤ (((List.range st.batch.length).map W.spawnOutcome).filterMap
                id).length := List.length_filterMap_le _ _
          _ ≤ ((List.range st.batch.length).map W.spawnOutcome).length :=
              List.length_filterMap_le _ _
          _ = st.batch.length := by simp
      have h2 : st.batch.length ≤ spawnPoints.length - spawnIndex0 := by
        have hb1 := hb.1
        have hb2 := hb.2
        simp only [List.length_nil] at hb2
        omega
      omega
  · intro st hex
    rw [buildStep_exhausted spawnPoints heroLoc st hex]
    exact ⟨rfl, rfl⟩
  · intro st hl hhero hlt hnear
    subst hhero
    rw [buildStep_near_hero spawnPoints hl st hlt hnear]
    exact ⟨rfl, rfl, rfl⟩

/-- A batch simulator answering every request with a fresh id resolving
to an actor of the same id. -/
def demoBatchWorld : BatchWorld :=
  ⟨fun i => some (Int.ofNat i), fun i => some ⟨i⟩, true⟩

/-- Two candidate poses, the first on top of the hero. -/
def demoSpawnPoints : List Transform :=
  [zeroPose, ⟨⟨100, 0, 0⟩, ⟨0, 0, 0⟩⟩]

theorem c5_batch_exhaustion_witness :
    ∃ actors finalIndex,
      setup_batch_actors_vehicles demoBatchWorld demoSpawnPoints
          (some ⟨0, 0, 0⟩) 5 0 none true
        = BatchOut.done actors finalIndex ∧
      actors.length < 5 ∧ finalIndex ≤ demoSpawnPoints.length :=
  (c5_batch_exhaustion demoBatchWorld demoSpawnPoints (some ⟨0, 0, 0⟩) 5 0
    none rfl (by decide) (by decide)).1

end CarlaSpec
